import Mathlib

/-!
Verification of the `adptbx` toolbox (anisotropic displacement parameter
handling): tensor representation conversions, the analytic eigenvalue
solver (Cardan's formula), the power-iteration eigenvector solver, and the
Debye-Waller factor evaluators.  Floating-point scalars of the source are
modelled as exact real numbers.
-/

open Classical

namespace adptbx

/-- Error kinds raised by the solvers.  The source throws the shared
`not_positive_definite` error object for input-validation failures and
`cctbx_internal_error()` when power iteration fails to converge. -/
inductive ErrKind where
  | notPositiveDefinite : ErrKind
  | internalError : ErrKind
deriving DecidableEq

/-- Symmetric 3x3 tensor stored as six components, in the source's
canonical order `adp[0..5]` = (11, 22, 33, 12, 13, 23). -/
@[ext]
structure Tensor6 where
  a0 : ℝ
  a1 : ℝ
  a2 : ℝ
  a3 : ℝ
  a4 : ℝ
  a5 : ℝ

/-- Three-component vector (`boost::array<FloatType, 3>`). -/
structure Vec3 where
  x : ℝ
  y : ℝ
  z : ℝ

/-- Dense 3x3 matrix stored row-major as a flat array
(`boost::array<FloatType, 9>`), entries `m0..m8`. -/
structure Mx33 where
  m0 : ℝ
  m1 : ℝ
  m2 : ℝ
  m3 : ℝ
  m4 : ℝ
  m5 : ℝ
  m6 : ℝ
  m7 : ℝ
  m8 : ℝ

/-- Miller index: three signed integers (h, k, l). -/
structure MillerIndex where
  h : ℤ
  k : ℤ
  l : ℤ

/-- Modelled from the spec: `uctbx::UnitCell` is not in the sources.  Per
the spec it supplies the reciprocal cell edge lengths (the source's
`uc.getLen(true)`, three values) and the quadratic form `Q` of a Miller
index used by the isotropic Debye-Waller factor.  The orthogonalization
and fractionalization matrices are not needed by the properties below. -/
structure UnitCell where
  rLen0 : ℝ
  rLen1 : ℝ
  rLen2 : ℝ
  Q : MillerIndex → ℝ

/-- `2 * pi * pi` of the source. -/
noncomputable def TwoPiSquared : ℝ := 2 * Real.pi * Real.pi

/-- `8 * pi * pi` of the source. -/
noncomputable def EightPiSquared : ℝ := 8 * Real.pi * Real.pi

/-- Convert isotropic adp U -> B: `Uiso * EightPiSquared`. -/
noncomputable def U_as_B (Uiso : ℝ) : ℝ := Uiso * EightPiSquared

/-- Convert isotropic adp B -> U: `Biso / EightPiSquared`. -/
noncomputable def B_as_U (Biso : ℝ) : ℝ := Biso / EightPiSquared

/-- Convert anisotropic adp U -> B: every component scaled by
`EightPiSquared`. -/
noncomputable def U_as_B_aniso (U : Tensor6) : Tensor6 :=
  ⟨EightPiSquared * U.a0, EightPiSquared * U.a1, EightPiSquared * U.a2,
   EightPiSquared * U.a3, EightPiSquared * U.a4, EightPiSquared * U.a5⟩

/-- Convert anisotropic adp B -> U: every component scaled by
`1 / EightPiSquared`. -/
noncomputable def B_as_U_aniso (B : Tensor6) : Tensor6 :=
  ⟨(1 / EightPiSquared) * B.a0, (1 / EightPiSquared) * B.a1,
   (1 / EightPiSquared) * B.a2, (1 / EightPiSquared) * B.a3,
   (1 / EightPiSquared) * B.a4, (1 / EightPiSquared) * B.a5⟩

/-- Convert anisotropic adp Uuvrs -> Ustar: each component scaled by the
product of the corresponding reciprocal edge lengths. -/
def Uuvrs_as_Ustar (uc : UnitCell) (U : Tensor6) : Tensor6 :=
  ⟨U.a0 * (uc.rLen0 * uc.rLen0),
   U.a1 * (uc.rLen1 * uc.rLen1),
   U.a2 * (uc.rLen2 * uc.rLen2),
   U.a3 * (uc.rLen0 * uc.rLen1),
   U.a4 * (uc.rLen0 * uc.rLen2),
   U.a5 * (uc.rLen1 * uc.rLen2)⟩

/-- Convert anisotropic adp Ustar -> Uuvrs: inverse of `Uuvrs_as_Ustar`,
dividing by the same edge-length products. -/
noncomputable def Ustar_as_Uuvrs (uc : UnitCell) (U : Tensor6) : Tensor6 :=
  ⟨U.a0 / (uc.rLen0 * uc.rLen0),
   U.a1 / (uc.rLen1 * uc.rLen1),
   U.a2 / (uc.rLen2 * uc.rLen2),
   U.a3 / (uc.rLen0 * uc.rLen1),
   U.a4 / (uc.rLen0 * uc.rLen2),
   U.a5 / (uc.rLen1 * uc.rLen2)⟩

/-- Convert anisotropic adp Ustar -> beta: elements multiplied by
`TwoPiSquared`. -/
noncomputable def Ustar_as_beta (U : Tensor6) : Tensor6 :=
  ⟨TwoPiSquared * U.a0, TwoPiSquared * U.a1, TwoPiSquared * U.a2,
   TwoPiSquared * U.a3, TwoPiSquared * U.a4, TwoPiSquared * U.a5⟩

/-- Convert anisotropic adp beta -> Ustar: elements divided by
`TwoPiSquared`. -/
noncomputable def beta_as_Ustar (B : Tensor6) : Tensor6 :=
  ⟨B.a0 / TwoPiSquared, B.a1 / TwoPiSquared, B.a2 / TwoPiSquared,
   B.a3 / TwoPiSquared, B.a4 / TwoPiSquared, B.a5 / TwoPiSquared⟩

/-- Convert Ucart -> Uiso: mean of the diagonal elements. -/
noncomputable def Ucart_as_Uiso (U : Tensor6) : ℝ := (U.a0 + U.a1 + U.a2) / 3

/-- Convert Uiso -> Ucart: diagonal elements set to `Uiso`, off-diagonal
elements set to zero. -/
def Uiso_as_Ucart (Uiso : ℝ) : Tensor6 := ⟨Uiso, Uiso, Uiso, 0, 0, 0⟩

/-- Isotropic Debye-Waller factor given `(sin(theta)/lambda)^2` and Biso. -/
noncomputable def DebyeWallerFactorBiso (stol2 Biso : ℝ) : ℝ :=
  Real.exp (-Biso * stol2)

/-- Isotropic Debye-Waller factor given `(sin(theta)/lambda)^2` and Uiso. -/
noncomputable def DebyeWallerFactorUiso (stol2 Uiso : ℝ) : ℝ :=
  DebyeWallerFactorBiso stol2 (U_as_B Uiso)

/-- Isotropic Debye-Waller factor given Miller index and Biso. -/
noncomputable def DebyeWallerFactorBisoMIx (uc : UnitCell) (MIx : MillerIndex)
    (Biso : ℝ) : ℝ :=
  DebyeWallerFactorBiso (uc.Q MIx / 4) Biso

/-- Isotropic Debye-Waller factor given Miller index and Uiso. -/
noncomputable def DebyeWallerFactorUisoMIx (uc : UnitCell) (MIx : MillerIndex)
    (Uiso : ℝ) : ℝ :=
  DebyeWallerFactorBisoMIx uc MIx (U_as_B Uiso)

/-- Anisotropic Debye-Waller factor given Miller index and Ustar. -/
noncomputable def DebyeWallerFactorUstar (MIx : MillerIndex) (U : Tensor6) : ℝ :=
  Real.exp (-TwoPiSquared * (
      ((MIx.h : ℝ) * (MIx.h : ℝ)) * U.a0
    + ((MIx.k : ℝ) * (MIx.k : ℝ)) * U.a1
    + ((MIx.l : ℝ) * (MIx.l : ℝ)) * U.a2
    + (2 * (MIx.h : ℝ) * (MIx.k : ℝ)) * U.a3
    + (2 * (MIx.h : ℝ) * (MIx.l : ℝ)) * U.a4
    + (2 * (MIx.k : ℝ) * (MIx.l : ℝ)) * U.a5))

/-- Normal-form coefficient `r` of the characteristic cubic
`x^3 + r x^2 + s x + t = 0` of the tensor. -/
noncomputable def evalR (adp : Tensor6) : ℝ := -adp.a0 - adp.a1 - adp.a2

/-- Normal-form coefficient `s` of the characteristic cubic. -/
noncomputable def evalS (adp : Tensor6) : ℝ :=
  adp.a0 * adp.a1 + adp.a0 * adp.a2 + adp.a1 * adp.a2
    - adp.a3 * adp.a3 - adp.a4 * adp.a4 - adp.a5 * adp.a5

/-- Normal-form coefficient `t` of the characteristic cubic. -/
noncomputable def evalT (adp : Tensor6) : ℝ :=
  adp.a0 * adp.a5 * adp.a5 - adp.a0 * adp.a1 * adp.a2
    + adp.a2 * adp.a3 * adp.a3 + adp.a1 * adp.a4 * adp.a4
    - 2 * adp.a3 * adp.a4 * adp.a5

/-- Reduced-form coefficient `p = s - r^2/3` of `y^3 + p y + q = 0`. -/
noncomputable def cardanP (r s : ℝ) : ℝ := s - r * r / 3

/-- Reduced-form coefficient `q = 2 r^3/27 - r s/3 + t`. -/
noncomputable def cardanQ (r s t : ℝ) : ℝ := 2 * r * r * r / 27 - r * s / 3 + t

/-- Discriminant `D = p^3/27 + q^2/4`, used to test for the number of
real roots. -/
noncomputable def cardanD (p q : ℝ) : ℝ := p * p * p / 27 + q * q / 4

/-- `zeta = sqrt(-p^3/27)` of the trigonometric Cardan solution. -/
noncomputable def zeta (p : ℝ) : ℝ := Real.sqrt (-(p * p * p) / 27)

/-- `phi = acos(-q / (2 zeta))` of the trigonometric Cardan solution. -/
noncomputable def phi (p q : ℝ) : ℝ := Real.arccos (-q / (2 * zeta p))

/-- `rzeta = 2 * zeta^(1/3)` of the trigonometric Cardan solution. -/
noncomputable def rzeta (p : ℝ) : ℝ := 2 * zeta p ^ ((1 : ℝ) / 3)

/-- The i-th root of the normal-form cubic:
`rzeta * cos((phi + 2 i pi)/3) - r/3`. -/
noncomputable def cardanRoot (r p q : ℝ) (i : ℕ) : ℝ :=
  rzeta p * Real.cos ((phi p q + (i * 2 : ℕ) * Real.pi) / 3) - r / 3

/-- Root extraction of the normal-form cubic with coefficients (r, s, t):
fails when the discriminant shows imaginary roots (the source asserts
`D <= 0`; per the spec this failure is folded into the NotPositiveDefinite
category) or when a root is non-positive (the source throws
`not_positive_definite`). -/
noncomputable def cardanRoots (r s t : ℝ) : Except ErrKind Vec3 :=
  let p := cardanP r s
  let q := cardanQ r s t
  if 0 < cardanD p q then .error .notPositiveDefinite
  else if cardanRoot r p q 0 ≤ 0 then .error .notPositiveDefinite
  else if cardanRoot r p q 1 ≤ 0 then .error .notPositiveDefinite
  else if cardanRoot r p q 2 ≤ 0 then .error .notPositiveDefinite
  else .ok ⟨cardanRoot r p q 0, cardanRoot r p q 1, cardanRoot r p q 2⟩

/-- Eigenvalues of the anisotropic adp tensor via Cardan's formula. -/
noncomputable def Eigenvalues (adp : Tensor6) : Except ErrKind Vec3 :=
  cardanRoots (evalR adp) (evalS adp) (evalT adp)

lemma EightPiSquared_pos : 0 < EightPiSquared := by
  unfold EightPiSquared
  positivity

lemma TwoPiSquared_pos : 0 < TwoPiSquared := by
  unfold TwoPiSquared
  positivity

/-- Expand a six-component tensor to its dense symmetric 3x3 matrix
(row-major), per the source's `Xaniso_as_SymMx33`. -/
def Xaniso_as_SymMx33 (X : Tensor6) : Mx33 :=
  ⟨X.a0, X.a3, X.a4,
   X.a3, X.a1, X.a5,
   X.a4, X.a5, X.a2⟩

/-- Modelled from the spec: `MatrixLite::multiply` (3x3 by 3x1) is not in
the sources; standard matrix-vector product. -/
def mulMV (M : Mx33) (V : Vec3) : Vec3 :=
  ⟨M.m0 * V.x + M.m1 * V.y + M.m2 * V.z,
   M.m3 * V.x + M.m4 * V.y + M.m5 * V.z,
   M.m6 * V.x + M.m7 * V.y + M.m8 * V.z⟩

/-- Inner product of two 3-vectors (the source's `operator*` on
`boost::array<_, 3>`). -/
def dot (a b : Vec3) : ℝ := a.x * b.x + a.y * b.y + a.z * b.z

/-- Componentwise negation of a 3-vector. -/
def negV (V : Vec3) : Vec3 := ⟨-V.x, -V.y, -V.z⟩

/-- Componentwise division of a 3-vector by a scalar. -/
noncomputable def divV (V : Vec3) (c : ℝ) : Vec3 := ⟨V.x / c, V.y / c, V.z / c⟩

/-- Modelled from the spec: `MatrixLite::approx_equal` is not in the
sources; per the spec the new iterate "matches the previous one within
tolerance", componentwise. -/
def approx_equal (a b : Vec3) (tol : ℝ) : Prop :=
  |a.x - b.x| ≤ tol ∧ |a.y - b.y| ≤ tol ∧ |a.z - b.z| ≤ tol

/-- Largest absolute component of a 3-vector: the value
`absMV[array_max_index(absMV)]` of the source. -/
def maxAbs (V : Vec3) : ℝ := max |V.x| (max |V.y| |V.z|)

/-- Modelled from the spec: `MatrixLite::Determinant` is not in the
sources; standard 3x3 determinant of the row-major flat matrix. -/
def Determinant (M : Mx33) : ℝ :=
  M.m0 * (M.m4 * M.m8 - M.m5 * M.m7)
    - M.m1 * (M.m3 * M.m8 - M.m5 * M.m6)
    + M.m2 * (M.m3 * M.m7 - M.m4 * M.m6)

/-- Modelled from the spec: `MatrixLite::CoFactorMxTp` is not in the
sources; transposed cofactor (adjugate) matrix, which divided by the
determinant gives the matrix inverse per spec step 2. -/
def CoFactorMxTp (M : Mx33) : Mx33 :=
  ⟨M.m4 * M.m8 - M.m5 * M.m7,
   M.m2 * M.m7 - M.m1 * M.m8,
   M.m1 * M.m5 - M.m2 * M.m4,
   M.m5 * M.m6 - M.m3 * M.m8,
   M.m0 * M.m8 - M.m2 * M.m6,
   M.m2 * M.m3 - M.m0 * M.m5,
   M.m3 * M.m7 - M.m4 * M.m6,
   M.m1 * M.m6 - M.m0 * M.m7,
   M.m0 * M.m4 - M.m1 * M.m3⟩

/-- Componentwise division of a matrix by a scalar (`M / d`). -/
noncomputable def divMx (M : Mx33) (d : ℝ) : Mx33 :=
  ⟨M.m0 / d, M.m1 / d, M.m2 / d,
   M.m3 / d, M.m4 / d, M.m5 / d,
   M.m6 / d, M.m7 / d, M.m8 / d⟩

/-- Modelled from the spec: `MatrixLite::cross_product` is not in the
sources; standard cross product. -/
def cross_product (a b : Vec3) : Vec3 :=
  ⟨a.y * b.z - a.z * b.y,
   a.z * b.x - a.x * b.z,
   a.x * b.y - a.y * b.x⟩

/-- Starting vector of a power iteration: unit vector along the
largest-magnitude diagonal entry of the matrix (`DiagonalElements` plus
`array_max_index`; aligned with the spec, the tie-break takes the first
maximal index). -/
noncomputable def startVector (M : Mx33) : Vec3 :=
  if |M.m0| ≥ |M.m4| ∧ |M.m0| ≥ |M.m8| then ⟨1, 0, 0⟩
  else if |M.m4| ≥ |M.m8| then ⟨0, 1, 0⟩
  else ⟨0, 0, 1⟩

/-- The default `tolerance = 1.e-6` of `recursively_multiply`. -/
noncomputable def default_tolerance : ℝ := 1e-6

/-- Loop of `detail::recursively_multiply` with the running
`RunAwayCounter` made explicit: multiply the iterate by the matrix; a
zero product is returned as is; otherwise normalize, fail with
`not_positive_definite` on negative convergence, return on convergence,
and fail with `cctbx_internal_error` once the counter exceeds 1000. -/
noncomputable def recursively_multiply_aux (M : Mx33) (tolerance : ℝ)
    (V : Vec3) (ctr : ℕ) : Except ErrKind Vec3 :=
  let MV := mulMV M V
  let abs_lambda := Real.sqrt (dot MV MV)
  if abs_lambda = 0 then .ok MV
  else
    let W := divV MV abs_lambda
    let scaled_tolerance := maxAbs W * tolerance
    if approx_equal W (negV V) scaled_tolerance then
      .error .notPositiveDefinite
    else if approx_equal W V scaled_tolerance then .ok W
    else if h : 1000 < ctr + 1 then .error .internalError
    else recursively_multiply_aux M tolerance W (ctr + 1)
termination_by 1001 - ctr
decreasing_by
  simp_wf
  omega

/-- `detail::recursively_multiply`, counter starting at zero. -/
noncomputable def recursively_multiply (M : Mx33) (V : Vec3)
    (tolerance : ℝ) : Except ErrKind Vec3 :=
  recursively_multiply_aux M tolerance V 0

/-- One pass of the eigenvector loop body: power iteration from the
matrix-determined start vector, then the zero-vector validation
(`result[iM] * result[iM] == 0.`). -/
noncomputable def eigenvector_of (M : Mx33) : Except ErrKind Vec3 :=
  match recursively_multiply M (startVector M) default_tolerance with
  | .error e => .error e
  | .ok v => if dot v v = 0 then .error .notPositiveDefinite else .ok v

/-- Eigenvectors of the anisotropic adp tensor: expand to a dense matrix,
reject a zero determinant, extract one eigenvector each from the matrix
and its inverse by power iteration, and produce the third by cross
product, rejecting a zero cross product (the source's final
`cctbx_assert`; per the spec this failure is folded into the
NotPositiveDefinite category).  The `tolerance` argument mirrors the
source signature; the source never forwards it to
`recursively_multiply`, which runs with its own default. -/
noncomputable def Eigenvectors (adp : Tensor6) (tolerance : ℝ) :
    Except ErrKind (Vec3 × Vec3 × Vec3) :=
  let M0 := Xaniso_as_SymMx33 adp
  let d := Determinant M0
  if d = 0 then .error .notPositiveDefinite
  else
    match eigenvector_of M0 with
    | .error e => .error e
    | .ok v0 =>
      match eigenvector_of (divMx (CoFactorMxTp M0) d) with
      | .error e => .error e
      | .ok v1 =>
        let v2 := cross_product v0 v1
        if dot v2 v2 = 0 then .error .notPositiveDefinite
        else .ok (v0, v1, v2)

lemma zeta_zero : zeta 0 = 0 := by
  simp [zeta]

lemma rzeta_zero : rzeta 0 = 0 := by
  rw [rzeta, zeta_zero, Real.zero_rpow (by norm_num : ((1 : ℝ) / 3) ≠ 0),
    mul_zero]

lemma cardanRoot_p_zero_q_zero (r : ℝ) (i : ℕ) :
    cardanRoot r 0 0 i = -(r / 3) := by
  rw [cardanRoot, rzeta_zero, zero_mul, zero_sub]

/-- On an isotropic Cartesian tensor the reduced cubic degenerates to
`p = 0`, `q = 0` and all three Cardan roots equal the isotropic value. -/
lemma eigenvalues_iso (u : ℝ) (hu : 0 < u) :
    Eigenvalues (Uiso_as_Ucart u) = .ok ⟨u, u, u⟩ := by
  have hp : cardanP (evalR (Uiso_as_Ucart u)) (evalS (Uiso_as_Ucart u)) = 0 := by
    simp only [cardanP, evalR, evalS, Uiso_as_Ucart]
    ring
  have hq : cardanQ (evalR (Uiso_as_Ucart u)) (evalS (Uiso_as_Ucart u))
      (evalT (Uiso_as_Ucart u)) = 0 := by
    simp only [cardanQ, evalR, evalS, evalT, Uiso_as_Ucart]
    ring
  have hroot : ∀ i : ℕ, cardanRoot (evalR (Uiso_as_Ucart u)) 0 0 i = u := by
    intro i
    rw [cardanRoot_p_zero_q_zero]
    simp only [evalR, Uiso_as_Ucart]
    ring
  simp only [Eigenvalues, cardanRoots, hp, hq, hroot]
  rw [if_neg (by norm_num [cardanD] : ¬(0 < cardanD 0 0)),
    if_neg (not_le.mpr hu), if_neg (not_le.mpr hu), if_neg (not_le.mpr hu)]

/-- A successful Cardan root extraction returns only strictly positive
roots. -/
lemma cardanRoots_ok_pos (r s t : ℝ) (v : Vec3)
    (h : cardanRoots r s t = .ok v) : 0 < v.x ∧ 0 < v.y ∧ 0 < v.z := by
  simp only [cardanRoots] at h
  split_ifs at h with h1 h2 h3 h4
  injection h with h
  subst h
  exact ⟨not_le.mp h2, not_le.mp h3, not_le.mp h4⟩

/-- When the discriminant admits three real roots, the extraction fails
(with `not_positive_definite`) exactly when one of the three roots is
non-positive. -/
lemma cardanRoots_error_iff (r s t : ℝ)
    (hD : cardanD (cardanP r s) (cardanQ r s t) ≤ 0) :
    cardanRoots r s t = .error .notPositiveDefinite ↔
      (cardanRoot r (cardanP r s) (cardanQ r s t) 0 ≤ 0
        ∨ cardanRoot r (cardanP r s) (cardanQ r s t) 1 ≤ 0
        ∨ cardanRoot r (cardanP r s) (cardanQ r s t) 2 ≤ 0) := by
  simp only [cardanRoots]
  split_ifs with h1 h2 h3 h4
  · exact absurd h1 (not_lt.mpr hD)
  · simp [h2]
  · simp [h3]
  · simp [h4]
  · simp [h2, h3, h4]

/-- The tensor (-1, 1, 1, 0, 0, 0) has discriminant zero, roots
(1, -1, 1), and the solver rejects it at the second root. -/
lemma eigenvalues_neg_diag :
    Eigenvalues ⟨-1, 1, 1, 0, 0, 0⟩ = .error .notPositiveDefinite := by
  have hr : evalR ⟨-1, 1, 1, 0, 0, 0⟩ = -1 := by norm_num [evalR]
  have hs : evalS ⟨-1, 1, 1, 0, 0, 0⟩ = -1 := by norm_num [evalS]
  have ht : evalT ⟨-1, 1, 1, 0, 0, 0⟩ = 1 := by norm_num [evalT]
  have hp : cardanP (-1) (-1) = -(4 / 3) := by norm_num [cardanP]
  have hq : cardanQ (-1) (-1) 1 = 16 / 27 := by norm_num [cardanQ]
  have hD : cardanD (-(4 / 3)) (16 / 27) = 0 := by norm_num [cardanD]
  have hz : zeta (-(4 / 3)) = 8 / 27 := by
    have h1 : (-(-(4 / 3) * -(4 / 3) * -(4 / 3)) / 27 : ℝ) = (8 / 27) ^ 2 := by
      norm_num
    rw [zeta, h1, Real.sqrt_sq (by norm_num : (0 : ℝ) ≤ 8 / 27)]
  have hphi : phi (-(4 / 3)) (16 / 27) = Real.pi := by
    have h1 : (-(16 / 27) / (2 * (8 / 27)) : ℝ) = -1 := by norm_num
    rw [phi, hz, h1, Real.arccos_neg_one]
  have hrz : rzeta (-(4 / 3)) = 4 / 3 := by
    rw [rzeta, hz, show (8 / 27 : ℝ) = (2 / 3 : ℝ) ^ (3 : ℕ) by norm_num,
      ← Real.rpow_natCast (2 / 3 : ℝ) 3,
      ← Real.rpow_mul (by norm_num : (0 : ℝ) ≤ 2 / 3),
      show (((3 : ℕ) : ℝ) * (1 / 3) : ℝ) = 1 by push_cast; ring,
      Real.rpow_one]
    norm_num
  have h0 : cardanRoot (-1) (-(4 / 3)) (16 / 27) 0 = 1 := by
    rw [cardanRoot, hrz, hphi,
      show ((Real.pi + ((0 * 2 : ℕ) : ℝ) * Real.pi) / 3 : ℝ) = Real.pi / 3 by
        push_cast; ring,
      Real.cos_pi_div_three]
    norm_num
  have h1 : cardanRoot (-1) (-(4 / 3)) (16 / 27) 1 = -1 := by
    rw [cardanRoot, hrz, hphi,
      show ((Real.pi + ((1 * 2 : ℕ) : ℝ) * Real.pi) / 3 : ℝ) = Real.pi by
        push_cast; ring,
      Real.cos_pi]
    norm_num
  simp only [Eigenvalues, cardanRoots, hr, hs, ht, hp, hq, hD, h0, h1]
  rw [if_neg (lt_irrefl (0 : ℝ)),
    if_neg (by norm_num : ¬((1 : ℝ) ≤ 0)),
    if_pos (by norm_num : ((-1 : ℝ) ≤ 0))]

/-- Power iteration applied to the identity matrix from its start vector
converges at once to (1, 0, 0). -/
lemma eigenvector_of_idM :
    eigenvector_of ⟨1, 0, 0, 0, 1, 0, 0, 0, 1⟩ = .ok ⟨1, 0, 0⟩ := by
  have hsv : startVector ⟨1, 0, 0, 0, 1, 0, 0, 0, 1⟩ = ⟨1, 0, 0⟩ := by
    rw [startVector, if_pos (by norm_num)]
  have hrm : recursively_multiply_aux ⟨1, 0, 0, 0, 1, 0, 0, 0, 1⟩
      default_tolerance ⟨1, 0, 0⟩ 0 = .ok ⟨1, 0, 0⟩ := by
    rw [recursively_multiply_aux]
    norm_num [mulMV, dot, divV, negV, maxAbs, approx_equal,
      default_tolerance, Real.sqrt_one]
  simp only [eigenvector_of, recursively_multiply, hsv, hrm]
  norm_num [dot]

end adptbx

namespace adptbx

/-- C1: for every strictly positive scalar u, converting it to Cartesian
form with `Uiso_as_Ucart` and running `Eigenvalues` succeeds and returns
three eigenvalues each equal to u; the repeated (degenerate) eigenvalue
is not an error. -/
theorem eigenvalues_of_isotropic (u : ℝ) (hu : 0 < u) :
    Eigenvalues (Uiso_as_Ucart u) = .ok ⟨u, u, u⟩ :=
  eigenvalues_iso u hu

/-- Witness for `eigenvalues_of_isotropic` at u = 1. -/
theorem eigenvalues_of_isotropic_witness :
    Eigenvalues (Uiso_as_Ucart 1) = .ok ⟨1, 1, 1⟩ :=
  eigenvalues_of_isotropic 1 one_pos

/-- C2: whenever the cubic discriminant D = p^3/27 + q^2/4 is strictly
positive, the eigenvalue extraction fails with the NotPositiveDefinite
error kind (and no other kind), both at the level of the tensor solver
`Eigenvalues` and of the underlying cubic root extraction `cardanRoots`
(over exact reals a symmetric tensor always has D <= 0, so the cubic
level exhibits the branch on satisfiable inputs). -/
theorem discriminant_positive_npd :
    (∀ adp : Tensor6,
        0 < cardanD (cardanP (evalR adp) (evalS adp))
              (cardanQ (evalR adp) (evalS adp) (evalT adp)) →
        Eigenvalues adp = .error .notPositiveDefinite)
    ∧ (∀ r s t : ℝ, 0 < cardanD (cardanP r s) (cardanQ r s t) →
        cardanRoots r s t = .error .notPositiveDefinite) := by
  constructor
  · intro adp h
    simp only [Eigenvalues, cardanRoots]
    rw [if_pos h]
  · intro r s t h
    simp only [cardanRoots]
    rw [if_pos h]

/-- Witness for `discriminant_positive_npd` at the cubic (r,s,t) =
(0,0,1), whose discriminant is 1/4 > 0. -/
theorem discriminant_positive_npd_witness :
    cardanRoots 0 0 1 = .error .notPositiveDefinite :=
  discriminant_positive_npd.2 0 0 1
    (by norm_num [cardanD, cardanP, cardanQ])

/-- C5: when the discriminant admits three real roots (D <= 0), the
eigenvalue solver fails with NotPositiveDefinite exactly when one of the
three Cardan roots is non-positive; the tensor (-1,1,1,0,0,0) fails with
NotPositiveDefinite; and on success all returned eigenvalues are strictly
positive. -/
theorem npd_iff_nonpositive_root :
    (∀ adp : Tensor6,
        cardanD (cardanP (evalR adp) (evalS adp))
            (cardanQ (evalR adp) (evalS adp) (evalT adp)) ≤ 0 →
        (Eigenvalues adp = .error .notPositiveDefinite ↔
          (cardanRoot (evalR adp) (cardanP (evalR adp) (evalS adp))
              (cardanQ (evalR adp) (evalS adp) (evalT adp)) 0 ≤ 0
            ∨ cardanRoot (evalR adp) (cardanP (evalR adp) (evalS adp))
                (cardanQ (evalR adp) (evalS adp) (evalT adp)) 1 ≤ 0
            ∨ cardanRoot (evalR adp) (cardanP (evalR adp) (evalS adp))
                (cardanQ (evalR adp) (evalS adp) (evalT adp)) 2 ≤ 0)))
    ∧ Eigenvalues ⟨-1, 1, 1, 0, 0, 0⟩ = .error .notPositiveDefinite
    ∧ (∀ (adp : Tensor6) (v : Vec3), Eigenvalues adp = .ok v →
        0 < v.x ∧ 0 < v.y ∧ 0 < v.z) := by
  refine ⟨?_, eigenvalues_neg_diag, ?_⟩
  · intro adp hD
    exact cardanRoots_error_iff (evalR adp) (evalS adp) (evalT adp) hD
  · intro adp v h
    exact cardanRoots_ok_pos (evalR adp) (evalS adp) (evalT adp) v h

/-- Witness for `npd_iff_nonpositive_root`: the success branch applied to
the isotropic tensor with u = 1, and the failure equivalence applied at
the tensor (-1,1,1,0,0,0) with D = 0. -/
theorem npd_iff_nonpositive_root_witness :
    (0 < (1 : ℝ) ∧ 0 < (1 : ℝ) ∧ 0 < (1 : ℝ))
    ∧ (Eigenvalues (⟨-1, 1, 1, 0, 0, 0⟩ : Tensor6)
          = .error .notPositiveDefinite ↔
        (cardanRoot (evalR ⟨-1, 1, 1, 0, 0, 0⟩)
            (cardanP (evalR ⟨-1, 1, 1, 0, 0, 0⟩) (evalS ⟨-1, 1, 1, 0, 0, 0⟩))
            (cardanQ (evalR ⟨-1, 1, 1, 0, 0, 0⟩) (evalS ⟨-1, 1, 1, 0, 0, 0⟩)
              (evalT ⟨-1, 1, 1, 0, 0, 0⟩)) 0 ≤ 0
          ∨ cardanRoot (evalR ⟨-1, 1, 1, 0, 0, 0⟩)
              (cardanP (evalR ⟨-1, 1, 1, 0, 0, 0⟩) (evalS ⟨-1, 1, 1, 0, 0, 0⟩))
              (cardanQ (evalR ⟨-1, 1, 1, 0, 0, 0⟩) (evalS ⟨-1, 1, 1, 0, 0, 0⟩)
                (evalT ⟨-1, 1, 1, 0, 0, 0⟩)) 1 ≤ 0
          ∨ cardanRoot (evalR ⟨-1, 1, 1, 0, 0, 0⟩)
              (cardanP (evalR ⟨-1, 1, 1, 0, 0, 0⟩) (evalS ⟨-1, 1, 1, 0, 0, 0⟩))
              (cardanQ (evalR ⟨-1, 1, 1, 0, 0, 0⟩) (evalS ⟨-1, 1, 1, 0, 0, 0⟩)
                (evalT ⟨-1, 1, 1, 0, 0, 0⟩)) 2 ≤ 0)) :=
  ⟨npd_iff_nonpositive_root.2.2 (Uiso_as_Ucart 1) ⟨1, 1, 1⟩
      (eigenvalues_iso 1 one_pos),
    npd_iff_nonpositive_root.1 ⟨-1, 1, 1, 0, 0, 0⟩
      (by norm_num [cardanD, cardanP, cardanQ, evalR, evalS, evalT])⟩

/-- C4: each listed conversion composed with its inverse reproduces the
original value: Ustar/Uuvrs (for nonzero reciprocal edge lengths),
Ustar/beta, anisotropic U/B, scalar U/B, and isotropic/Cartesian. -/
theorem roundtrips_exact :
    (∀ (uc : UnitCell) (U : Tensor6), uc.rLen0 ≠ 0 → uc.rLen1 ≠ 0 →
      uc.rLen2 ≠ 0 → Ustar_as_Uuvrs uc (Uuvrs_as_Ustar uc U) = U)
    ∧ (∀ U : Tensor6, beta_as_Ustar (Ustar_as_beta U) = U)
    ∧ (∀ U : Tensor6, B_as_U_aniso (U_as_B_aniso U) = U)
    ∧ (∀ u : ℝ, B_as_U (U_as_B u) = u)
    ∧ (∀ u : ℝ, Ucart_as_Uiso (Uiso_as_Ucart u) = u) := by
  have h2 : TwoPiSquared ≠ 0 := ne_of_gt TwoPiSquared_pos
  have h8 : EightPiSquared ≠ 0 := ne_of_gt EightPiSquared_pos
  refine ⟨?_, ?_, ?_, ?_, ?_⟩
  · intro uc U hr0 hr1 hr2
    ext <;> · simp only [Uuvrs_as_Ustar, Ustar_as_Uuvrs]; field_simp
  · intro U
    ext <;> · simp only [Ustar_as_beta, beta_as_Ustar]; field_simp
  · intro U
    ext <;> · simp only [U_as_B_aniso, B_as_U_aniso]; field_simp
  · intro u
    simp only [U_as_B, B_as_U]
    field_simp
  · intro u
    simp only [Uiso_as_Ucart, Ucart_as_Uiso]
    ring

/-- Witness for `roundtrips_exact` at a concrete unit cell and tensor. -/
theorem roundtrips_exact_witness :
    Ustar_as_Uuvrs ⟨1, 2, 3, fun _ => 0⟩
      (Uuvrs_as_Ustar ⟨1, 2, 3, fun _ => 0⟩ ⟨1, 2, 3, 4, 5, 6⟩)
      = ⟨1, 2, 3, 4, 5, 6⟩ :=
  roundtrips_exact.1 ⟨1, 2, 3, fun _ => 0⟩ ⟨1, 2, 3, 4, 5, 6⟩
    (by norm_num) (by norm_num) (by norm_num)

/-- C3: when `Eigenvectors` reaches the cross-product step (nonzero
determinant and two successful power iterations) and the cross product of
the two computed eigenvectors is the zero vector, the call fails with the
NotPositiveDefinite error kind and no other kind. -/
theorem cross_product_zero_npd (adp : Tensor6) (tol : ℝ) (v0 v1 : Vec3)
    (hd : Determinant (Xaniso_as_SymMx33 adp) ≠ 0)
    (h0 : eigenvector_of (Xaniso_as_SymMx33 adp) = .ok v0)
    (h1 : eigenvector_of (divMx (CoFactorMxTp (Xaniso_as_SymMx33 adp))
            (Determinant (Xaniso_as_SymMx33 adp))) = .ok v1)
    (hc : cross_product v0 v1 = ⟨0, 0, 0⟩) :
    Eigenvectors adp tol = .error .notPositiveDefinite := by
  simp only [Eigenvectors]
  rw [if_neg hd, h0, h1]
  simp [hc, dot]

/-- Witness for `cross_product_zero_npd`: on the isotropic tensor
(1,1,1,0,0,0) both power iterations return (1,0,0), whose cross product
with itself is zero. -/
theorem cross_product_zero_npd_witness :
    Eigenvectors ⟨1, 1, 1, 0, 0, 0⟩ 1 = .error .notPositiveDefinite := by
  have hX : Xaniso_as_SymMx33 ⟨1, 1, 1, 0, 0, 0⟩
      = ⟨1, 0, 0, 0, 1, 0, 0, 0, 1⟩ := by
    simp [Xaniso_as_SymMx33]
  have hdet : Determinant (Xaniso_as_SymMx33 ⟨1, 1, 1, 0, 0, 0⟩) = 1 := by
    rw [hX]
    norm_num [Determinant]
  have hdiv : divMx (CoFactorMxTp (Xaniso_as_SymMx33 ⟨1, 1, 1, 0, 0, 0⟩))
      (Determinant (Xaniso_as_SymMx33 ⟨1, 1, 1, 0, 0, 0⟩))
      = ⟨1, 0, 0, 0, 1, 0, 0, 0, 1⟩ := by
    rw [hX]
    norm_num [divMx, CoFactorMxTp, Determinant]
  exact cross_product_zero_npd ⟨1, 1, 1, 0, 0, 0⟩ 1 ⟨1, 0, 0⟩ ⟨1, 0, 0⟩
    (by rw [hdet]; norm_num)
    (by rw [hX]; exact eigenvector_of_idM)
    (by rw [hdiv]; exact eigenvector_of_idM)
    (by norm_num [cross_product])

/-- C6: whenever the determinant of the dense 3x3 expansion of the tensor
is exactly zero, `Eigenvectors` fails with NotPositiveDefinite, before
any power iteration is attempted. -/
theorem zero_determinant_npd (adp : Tensor6) (tol : ℝ)
    (hd : Determinant (Xaniso_as_SymMx33 adp) = 0) :
    Eigenvectors adp tol = .error .notPositiveDefinite := by
  simp only [Eigenvectors]
  rw [if_pos hd]

/-- Witness for `zero_determinant_npd` at the zero tensor. -/
theorem zero_determinant_npd_witness :
    Eigenvectors ⟨0, 0, 0, 0, 0, 0⟩ 1 = .error .notPositiveDefinite :=
  zero_determinant_npd ⟨0, 0, 0, 0, 0, 0⟩ 1
    (by norm_num [Determinant, Xaniso_as_SymMx33])

/-- C7: at any state of the power iteration, if the matrix-vector product
is nonzero and its normalization equals the negation of the previous
iterate within the scaled tolerance (tolerance scaled by the
largest-magnitude component of the new iterate), the computation fails
with the NotPositiveDefinite error kind. -/
theorem negative_convergence_npd (M : Mx33) (V : Vec3) (tol : ℝ) (ctr : ℕ)
    (hl : Real.sqrt (dot (mulMV M V) (mulMV M V)) ≠ 0)
    (hneg : approx_equal
        (divV (mulMV M V) (Real.sqrt (dot (mulMV M V) (mulMV M V))))
        (negV V)
        (maxAbs (divV (mulMV M V)
            (Real.sqrt (dot (mulMV M V) (mulMV M V)))) * tol)) :
    recursively_multiply_aux M tol V ctr = .error .notPositiveDefinite := by
  rw [recursively_multiply_aux]
  simp only
  rw [if_neg hl, if_pos hneg]

/-- Witness for `negative_convergence_npd`: the negated identity matrix
maps (1,0,0) to its own negation exactly. -/
theorem negative_convergence_npd_witness :
    recursively_multiply_aux ⟨-1, 0, 0, 0, -1, 0, 0, 0, -1⟩
      default_tolerance ⟨1, 0, 0⟩ 0 = .error .notPositiveDefinite :=
  negative_convergence_npd ⟨-1, 0, 0, 0, -1, 0, 0, 0, -1⟩ ⟨1, 0, 0⟩
    default_tolerance 0
    (by norm_num [mulMV, dot, Real.sqrt_one])
    (by norm_num [mulMV, dot, divV, negV, maxAbs, approx_equal,
      default_tolerance, Real.sqrt_one])

/-- C8: the power iteration always terminates, with one of exactly three
outcomes: a returned vector, a NotPositiveDefinite failure, or an
InternalError failure; and the two failure kinds are distinct. -/
theorem power_iteration_terminates :
    (∀ (M : Mx33) (V : Vec3) (tol : ℝ),
      (∃ v, recursively_multiply M V tol = .ok v)
      ∨ recursively_multiply M V tol = .error .notPositiveDefinite
      ∨ recursively_multiply M V tol = .error .internalError)
    ∧ ErrKind.internalError ≠ ErrKind.notPositiveDefinite := by
  constructor
  · intro M V tol
    cases h : recursively_multiply M V tol with
    | ok v => exact Or.inl ⟨v, rfl⟩
    | error e =>
      cases e with
      | notPositiveDefinite => exact Or.inr (Or.inl rfl)
      | internalError => exact Or.inr (Or.inr rfl)
  · intro h
    cases h

/-- C10: `Eigenvectors` gives identical results for any two tolerance
arguments: the source never forwards its tolerance to the power
iteration, which always runs with the built-in default. -/
theorem eigenvectors_tolerance_independent (adp : Tensor6) (t1 t2 : ℝ) :
    Eigenvectors adp t1 = Eigenvectors adp t2 := rfl

/-- C9: with Uiso = 0 the isotropic Debye-Waller factor is 1 for every
`stol2` and for every unit cell and Miller index; with Miller index
(0,0,0) the anisotropic Debye-Waller factor is 1 for every tensor. -/
theorem debye_waller_unit_cases :
    (∀ stol2 : ℝ, DebyeWallerFactorUiso stol2 0 = 1)
    ∧ (∀ (uc : UnitCell) (MIx : MillerIndex),
        DebyeWallerFactorUisoMIx uc MIx 0 = 1)
    ∧ (∀ U : Tensor6, DebyeWallerFactorUstar ⟨0, 0, 0⟩ U = 1) := by
  refine ⟨?_, ?_, ?_⟩
  · intro stol2
    simp [DebyeWallerFactorUiso, DebyeWallerFactorBiso, U_as_B]
  · intro uc MIx
    simp [DebyeWallerFactorUisoMIx, DebyeWallerFactorBisoMIx,
      DebyeWallerFactorBiso, U_as_B]
  · intro U
    simp [DebyeWallerFactorUstar]

end adptbx
